import Mathlib

/-!
# v8sh: the host shell of `src/main.cc`

A shallow embedding of the reporter (`ReportException`), the execution driver
(`ExecuteString`), the file reader (`ReadFile`) and the host callbacks
(`Load`, `Print`, `Read`) of `src/main.cc`, with the properties of the
diagnostic layout, the output streams and the error paths proved about it.

Modelling conventions.
* A `v8::String::Utf8Value` keeps the whole converted text, NUL characters
  included, and `length()` counts them. A `const char*` into it is read by
  `printf("%s")`, `fopen` and the one-argument `NewFromUtf8` as a C string:
  the text up to the first NUL character (`upToNul`).
* `stdout` and `stderr` are the texts written so far; every `printf` /
  `fprintf` appends.
* The conversion `%i` of an `int` is its decimal numeral, `toString` on `Int`.
* A C `int` is a Lean `Int`. The only arithmetic on them is the `i++` of the
  two underline loops, executed only while `i` is below another `int`, so no
  increment leaves the `int` range.
* The bytes of a file are a `String`, one character for each byte.
* The engine (V8) is external: its compile, run and string-construction steps
  are parameters.
-/

namespace V8sh

/-! ## Engine values as the host observes them -/

/-- The character with code 0, which ends a C string. -/
def NUL : Char := Char.ofNat 0

/-- The C string at a `const char*` that points to the given text: the text up
to its first NUL character. -/
def upToNul (s : String) : String :=
  String.mk (s.data.takeWhile (fun c => c != NUL))

/-- The `v8::String::Utf8Value` of a handle: `some s` when `operator*` points
to the converted text `s` (NUL characters included), `none` when it is `NULL`
(empty handle or failed conversion). -/
abbrev Utf8Value := Option String

/-- Byte count reported by `Utf8Value::length()`; it is `0` for a `NULL`
value. -/
def Utf8Value.length : Utf8Value → Nat
  | some s => s.utf8ByteSize
  | none => 0

/-- The function `ToCString` of `main.cc`:
`return *value ? *value : "<string conversion failed>";`. The result is the
text the returned pointer points to. -/
def ToCString (value : Utf8Value) : String :=
  match value with
  | some s => s
  | none => "<string conversion failed>"

/-- What the host reads off a `v8::Message`. -/
structure Message where
  /-- The conversion of `GetScriptOrigin().ResourceName()`. -/
  ResourceName : Utf8Value
  /-- The result of `GetLineNumber()`. -/
  LineNumber : Int
  /-- The conversion of `GetSourceLine()`. -/
  SourceLine : Utf8Value
  /-- The result of `GetStartColumn()`. -/
  StartColumn : Int
  /-- The result of `GetEndColumn()`. -/
  EndColumn : Int

/-- What the host reads off a `v8::TryCatch`. -/
structure TryCatch where
  /-- The result of `HasCaught()`. -/
  HasCaught : Bool
  /-- The conversion of `Exception()`. -/
  Exception : Utf8Value
  /-- The handle `Message()`; `none` when it is empty. -/
  Message : Option Message
  /-- The conversion of `StackTrace()`. -/
  StackTrace : Utf8Value

/-! ## ReportException -/

/-- The loop `for (int i = 0; i < start; i++) fprintf(stderr, " ");`, entered
with the given `i`. -/
def spaceLoop (start i : Int) (err : String) : String :=
  if i < start then spaceLoop start (i + 1) (err ++ " ") else err
termination_by (start - i).toNat
decreasing_by omega

/-- The loop `for (int i = start; i < end; i++) fprintf(stderr, "^");`,
entered with the given `i`. -/
def caretLoop (stop i : Int) (err : String) : String :=
  if i < stop then caretLoop stop (i + 1) (err ++ "^") else err
termination_by (stop - i).toNat
decreasing_by omega

/-- Lines 34-42 of `main.cc`: the underline line appended to `stderr`. -/
def underline (message : Message) (err : String) : String :=
  let start := message.StartColumn
  let err := spaceLoop start 0 err
  let stop := message.EndColumn
  let err := caretLoop stop start err
  err ++ "\n"

/-- The function `ReportException` of `main.cc`, as a transformer of the text
of `stderr`. Every `%s` writes its argument as a C string. -/
def ReportException (try_catch : TryCatch) (err : String) : String :=
  let exception_string := ToCString try_catch.Exception
  match try_catch.Message with
  | none => err ++ upToNul exception_string ++ "\n"
  | some message =>
    let filename_string := ToCString message.ResourceName
    let linenum := message.LineNumber
    let err := err ++ upToNul filename_string ++ ":" ++ toString linenum ++ ": "
      ++ upToNul exception_string ++ "\n"
    let sourceline_string := ToCString message.SourceLine
    let err := err ++ upToNul sourceline_string ++ "\n"
    let err := underline message err
    let stack_trace := try_catch.StackTrace
    if stack_trace.length > 0 then
      let stack_trace_string := ToCString stack_trace
      err ++ upToNul stack_trace_string ++ "\n"
    else err

/-! ## The engine boundary and the process state -/

/-- What the host reads off a `v8::Value` handle. -/
structure Value where
  /-- The result of `IsUndefined()`. -/
  IsUndefined : Bool
  /-- The `v8::String::Utf8Value` conversion of the value. -/
  Utf8 : Utf8Value

/-- The value `undefined`, which `args[i]` yields for an index out of range. -/
def Value.undefined : Value := ⟨true, some "undefined"⟩

/-- What the C library reports about a name that `fopen` opens. -/
structure FileView where
  /-- The value of `ftell` after `fseek(file, 0, SEEK_END)`, converted to
  `size_t`; neither call is checked by `ReadFile`. -/
  size : Nat
  /-- Whether `new char[size + 1]` yields a buffer of `size + 1` bytes; when it
  does not, the process dies (uncaught `std::bad_alloc`, or a write outside
  the buffer). -/
  allocates : Bool
  /-- The bytes the stream delivers before it stops. -/
  bytes : String
  /-- Whether the stream stops on a read error (`ferror` set) rather than at
  the end of the file. -/
  error : Bool
  deriving DecidableEq

/-- The process state the shell acts on: the text written to `stdout` and to
`stderr` so far, the files by name (`none` when `fopen` returns `NULL`), and
the state of the engine. -/
structure World (σ : Type) where
  /-- Text written to `stdout`. -/
  out : String
  /-- Text written to `stderr`. -/
  err : String
  /-- The files `fopen` opens, by name. -/
  files : String → Option FileView
  /-- State of the isolate and its context. -/
  engine : σ

/-- The engine entry points the shell uses. Compiling and running may run
script code and host callbacks, so each transforms the whole process state;
the first component is the returned handle (`none` when empty), the second the
state of the enclosing `v8::TryCatch` afterwards. -/
structure Engine (σ Script : Type) where
  /-- The call `v8::Script::Compile(source, &origin)`. -/
  Compile : String → String → World σ → Option Script × TryCatch × World σ
  /-- The call `script->Run()`. -/
  Run : Script → World σ → Option Value × TryCatch × World σ
  /-- The call `v8::String::NewFromUtf8(isolate, data, kNormalString, length)`
  with an explicit length: the handle returned, `none` when empty. -/
  NewFromUtf8 : String → Int → Option String

/-! ## ExecuteString -/

/-- The function `ExecuteString` of `main.cc`. The result is `none` when an
`assert` fails (the process aborts), otherwise the returned `bool` and the
process state. -/
def ExecuteString {σ Script : Type} (E : Engine σ Script) (source name : String)
    (print_result report_exceptions : Bool) (w : World σ) : Option (Bool × World σ) :=
  match E.Compile source name w with
  | (none, try_catch, w) =>
    if report_exceptions then
      let w := { w with out := w.out ++ "Exception\n" }
      let w := { w with err := ReportException try_catch w.err }
      some (false, w)
    else some (false, w)
  | (some script, _, w) =>
    match E.Run script w with
    | (none, try_catch, w) =>
      if try_catch.HasCaught then
        if report_exceptions then
          let w := { w with out := w.out ++ "Exception2\n" }
          let w := { w with err := ReportException try_catch w.err }
          some (false, w)
        else some (false, w)
      else none
    | (some result, try_catch, w) =>
      if !try_catch.HasCaught then
        if print_result && !result.IsUndefined then
          let cstr := ToCString result.Utf8
          some (true, { w with out := w.out ++ upToNul cstr ++ "\n" })
        else some (true, w)
      else none

/-! ## ReadFile -/

/-- The call `fread(&chars[i], 1, n, file)` with `i` bytes already read: the
count returned and the value of `ferror(file)` afterwards. All `n` bytes are
delivered when the stream has them; otherwise the stream delivers what is left
and stops. -/
def fread (file : FileView) (i n : Nat) : Nat × Bool :=
  let left := file.bytes.length - i
  if n ≤ left then (n, false) else (left, file.error)

/-- How the read loop of `ReadFile` ends. -/
inductive LoopEnd where
  | done
  | error
  | hung
  deriving DecidableEq

/-- The loop `for (size_t i = 0; i < size;) { i += fread(...); if
(ferror(file)) ... return ...; }`, entered with the given `i`. A pass in which
`fread` returns 0 without an error leaves `i` and the stream as they were, so
the loop never ends. -/
def readLoop (file : FileView) (size i : Nat) : LoopEnd :=
  if _h : i < size then
    let r := fread file i (size - i)
    if r.2 then .error
    else if _h0 : r.1 = 0 then .hung
    else readLoop file size (i + r.1)
  else .done
termination_by size - i
decreasing_by
  have h1 : 0 < (fread file i (size - i)).1 := Nat.pos_of_ne_zero _h0
  omega

/-- The value of `static_cast<int>(size)` for a `size_t`. -/
def toInt (size : Nat) : Int :=
  if size % 2 ^ 32 < 2 ^ 31 then (size % 2 ^ 32 : Nat) else (size % 2 ^ 32 : Nat) - 2 ^ 32

/-- How a call of `ReadFile` ends: it returns a handle (`none` when empty), the
process dies, or the call never returns. -/
inductive ReadFileResult where
  | returned (handle : Option String)
  | crashed
  | hung
  deriving DecidableEq

/-- The function `ReadFile` of `main.cc`. -/
def ReadFile {σ Script : Type} (E : Engine σ Script) (w : World σ) (name : String) :
    ReadFileResult :=
  match w.files (upToNul name) with
  | none => .returned none
  | some file =>
    let size := file.size
    if !file.allocates then .crashed
    else
      match readLoop file size 0 with
      | .error => .returned none
      | .hung => .hung
      | .done => .returned (E.NewFromUtf8 (String.mk (file.bytes.data.take size)) (toInt size))

/-! ## The host callbacks -/

/-- The calls a host callback makes to `ReadFile` and `ExecuteString`, with
their arguments; a file name is recorded as the C string passed. -/
inductive Call where
  | ReadFile (name : String)
  | ExecuteString (source name : String) (print_result report_exceptions : Bool)
  deriving DecidableEq

/-- How a call of `Load` ends: it returns normally, it returns after
`ThrowException` with the given message, the process aborts on a failed
`assert` inside `ExecuteString`, the process dies inside `ReadFile`, or
`ReadFile` never returns. -/
inductive LoadOutcome (σ : Type) where
  | returned (w : World σ)
  | threw (message : String) (w : World σ)
  | aborted
  | crashed
  | hung

/-- The function `Load` of `main.cc` on the arguments not yet visited by its
loop: the calls it makes, in order, and how it ends. -/
def Load {σ Script : Type} (E : Engine σ Script) :
    List Value → World σ → List Call × LoadOutcome σ
  | [], w => ([], .returned w)
  | arg :: rest, w =>
    match arg.Utf8 with
    | none => ([], .threw "Error loading file" w)
    | some file =>
      match ReadFile E w file with
      | .crashed => ([.ReadFile (upToNul file)], .crashed)
      | .hung => ([.ReadFile (upToNul file)], .hung)
      | .returned none => ([.ReadFile (upToNul file)], .threw "Error loading file" w)
      | .returned (some source) =>
        let name := upToNul file
        match ExecuteString E source name false false w with
        | none => ([.ReadFile name, .ExecuteString source name false false], .aborted)
        | some (false, w) =>
          ([.ReadFile name, .ExecuteString source name false false],
            .threw "Error executing file" w)
        | some (true, w) =>
          let r := Load E rest w
          (.ReadFile name :: .ExecuteString source name false false :: r.1, r.2)

/-- The element `args[i]` of a `v8::FunctionCallbackInfo`. -/
def argAt (args : List Value) (i : Nat) : Value :=
  args.getD i Value.undefined

/-- How a call of `Read` ends: it returns, the process dies inside `ReadFile`,
or `ReadFile` never returns. -/
inductive ReadEnd where
  | returned
  | crashed
  | hung
  deriving DecidableEq

/-- What a call of `Read` leaves behind: the calls it made, the message passed
to `ThrowException` if any, the value given to `GetReturnValue().Set` if any,
and how the call ends. -/
structure ReadResult where
  calls : List Call
  thrown : Option String
  retval : Option String
  ending : ReadEnd
  deriving DecidableEq

/-- The function `Read` of `main.cc`. -/
def Read {σ Script : Type} (E : Engine σ Script) (args : List Value) (w : World σ) :
    ReadResult :=
  if args.length ≠ 1 then
    ⟨[], some "Bad parameters", none, .returned⟩
  else
    match (argAt args 0).Utf8 with
    | none => ⟨[], some "Error loading file", none, .returned⟩
    | some file =>
      match ReadFile E w file with
      | .crashed => ⟨[.ReadFile (upToNul file)], none, none, .crashed⟩
      | .hung => ⟨[.ReadFile (upToNul file)], none, none, .hung⟩
      | .returned none =>
        ⟨[.ReadFile (upToNul file)], some "Error loading file", none, .returned⟩
      | .returned (some source) =>
        ⟨[.ReadFile (upToNul file)], none, some source, .returned⟩

/-! ## Auxiliary definitions for the statements -/

/-- The text made of `n` copies of the character `c`. -/
def repeatChar (c : Char) (n : Nat) : String :=
  String.mk (List.replicate n c)

/-- The text one `%s` of the shell writes for a converted value: the
conversion up to its first NUL character, or the placeholder of `ToCString`
when there is no conversion. -/
def printed : Utf8Value → String
  | some s => upToNul s
  | none => "<string conversion failed>"

/-- The text the stack trace contributes to the report: nothing when the
trace is absent or has length 0, otherwise the trace up to its first NUL
character and a newline. -/
def traceText : Utf8Value → String
  | some t => if t = "" then "" else upToNul t ++ "\n"
  | none => ""

/-- The text of the report that precedes the underline line: the line
`origin:line: message` and the line of source code. -/
def reportHead (try_catch : TryCatch) (message : Message) : String :=
  printed message.ResourceName ++ ":" ++ toString message.LineNumber ++ ": "
    ++ printed try_catch.Exception ++ "\n" ++ printed message.SourceLine ++ "\n"

/-- Every argument of the list converts to a file name, is read and executes
successfully, one after the other from the first state; the list holds the
calls this takes, in order, and the last state is the one reached. -/
inductive LoadsCleanly {σ Script : Type} (E : Engine σ Script) :
    List Value → World σ → List Call → World σ → Prop where
  | nil (w : World σ) : LoadsCleanly E [] w [] w
  | cons {arg : Value} {rest : List Value} {file source : String} {w w1 w2 : World σ}
      {calls : List Call} (hfile : arg.Utf8 = some file)
      (hread : ReadFile E w file = .returned (some source))
      (hexec : ExecuteString E source (upToNul file) false false w = some (true, w1))
      (hrest : LoadsCleanly E rest w1 calls w2) :
      LoadsCleanly E (arg :: rest) w
        (.ReadFile (upToNul file)
          :: .ExecuteString source (upToNul file) false false :: calls) w2

/-- The state of a `v8::TryCatch` that has caught nothing. -/
def TryCatch.clear : TryCatch := ⟨false, none, none, none⟩

/-- A small engine for concrete runs. The text `bad(` does not compile; the
script `throw 1` throws; `print(1)` calls the host `print` and yields
`undefined`; any other script yields a value whose text is the script. A
string is built from the given number of bytes, or from the C string when the
length is negative. -/
def demoEngine : Engine Unit String where
  Compile := fun source name w =>
    if source = "bad(" then
      (none, ⟨true, some "SyntaxError: Unexpected end of input",
        some ⟨some name, 1, some source, 4, 4⟩, none⟩, w)
    else (some source, TryCatch.clear, w)
  Run := fun script w =>
    if script = "throw 1" then
      (none, ⟨true, some "1", some ⟨some "t.js", 1, some script, 0, 7⟩, none⟩, w)
    else if script = "print(1)" then
      (some Value.undefined, TryCatch.clear, { w with out := w.out ++ "1\n" })
    else (some ⟨false, some script⟩, TryCatch.clear, w)
  NewFromUtf8 := fun data length =>
    if length < 0 then some (upToNul data) else some (String.mk (data.data.take length.toNat))

/-- The files of the concrete runs: three scripts; the directory `d`, which
opens, reports a size no allocation can serve and delivers no byte; and
`short.js`, whose reported size exceeds the one byte it delivers. -/
def demoFiles (name : String) : Option FileView :=
  if name = "p1.js" then some ⟨8, true, "print(1)", false⟩
  else if name = "p2.js" then some ⟨4, true, "bad(", false⟩
  else if name = "p3.js" then some ⟨1, true, "2", false⟩
  else if name = "d" then some ⟨2 ^ 63 - 1, false, "", true⟩
  else if name = "short.js" then some ⟨10, true, "2", false⟩
  else none

/-- A process state with nothing written yet. -/
def demoWorld : World Unit where
  out := ""
  err := ""
  files := demoFiles
  engine := ()

/-- A string value holding the given text. -/
def Value.text (s : String) : Value := ⟨false, some s⟩

/-! ## Lemmas on C strings and the reporter -/

theorem printed_toCString (v : Utf8Value) : upToNul (ToCString v) = printed v := by
  cases v with
  | none => decide
  | some s => rfl

theorem repeatChar_succ (c : Char) (n : Nat) :
    repeatChar c (n + 1) = String.singleton c ++ repeatChar c n := by
  apply String.ext
  simp [repeatChar, List.replicate_succ, String.singleton]

theorem repeatChar_zero (c : Char) : repeatChar c 0 = "" := rfl

theorem append_empty_right (s : String) : s ++ "" = s := by
  apply String.ext
  simp

theorem spaceLoop_eq (start : Int) (n : Nat) :
    ∀ (i : Int) (err : String), (start - i).toNat = n →
      spaceLoop start i err = err ++ repeatChar ' ' n := by
  induction n with
  | zero =>
    intro i err h
    rw [spaceLoop, if_neg (by omega), repeatChar_zero, append_empty_right]
  | succ k ih =>
    intro i err h
    rw [spaceLoop, if_pos (by omega), ih (i + 1) _ (by omega), repeatChar_succ]
    simp [String.append_assoc]
    rfl

theorem caretLoop_eq (stop : Int) (n : Nat) :
    ∀ (i : Int) (err : String), (stop - i).toNat = n →
      caretLoop stop i err = err ++ repeatChar '^' n := by
  induction n with
  | zero =>
    intro i err h
    rw [caretLoop, if_neg (by omega), repeatChar_zero, append_empty_right]
  | succ k ih =>
    intro i err h
    rw [caretLoop, if_pos (by omega), ih (i + 1) _ (by omega), repeatChar_succ]
    simp [String.append_assoc]
    rfl

/-- The underline line for arbitrary `int` columns. -/
theorem underline_eq (message : Message) (err : String) :
    underline message err
      = err ++ repeatChar ' ' message.StartColumn.toNat
          ++ repeatChar '^' (message.EndColumn - message.StartColumn).toNat ++ "\n" := by
  unfold underline
  simp only []
  rw [spaceLoop_eq message.StartColumn message.StartColumn.toNat 0 err (by omega),
    caretLoop_eq message.EndColumn (message.EndColumn - message.StartColumn).toNat _ _ rfl]

theorem length_pos_iff (v : Utf8Value) :
    v.length > 0 ↔ ∃ t, v = some t ∧ t ≠ "" := by
  cases v with
  | none => simp [Utf8Value.length]
  | some t =>
    obtain ⟨cs⟩ := t
    cases cs with
    | nil => simp [Utf8Value.length, String.utf8ByteSize, String.utf8ByteSize.go]
    | cons c cs =>
      have hc : 0 < c.utf8Size := Char.utf8Size_pos c
      simp only [Utf8Value.length, String.utf8ByteSize, String.utf8ByteSize.go]
      constructor
      · intro _
        refine ⟨_, rfl, ?_⟩
        intro h
        have := congrArg String.data h
        simp at this
      · intro _
        omega

/-- The part of `ReportException` after the underline line, in closed form. -/
theorem trace_part (v : Utf8Value) (err : String) :
    (if v.length > 0 then err ++ upToNul (ToCString v) ++ "\n" else err)
      = err ++ traceText v := by
  cases v with
  | none => simp [Utf8Value.length, traceText, append_empty_right]
  | some t =>
    by_cases ht : t = ""
    · subst ht
      simp [Utf8Value.length, traceText, append_empty_right, String.utf8ByteSize,
        String.utf8ByteSize.go]
    · have hpos : Utf8Value.length (some t) > 0 := (length_pos_iff _).2 ⟨t, rfl, ht⟩
      rw [if_pos hpos]
      simp [traceText, ht, ToCString, String.append_assoc]

/-- The whole report when the message handle is present. -/
theorem report_some (try_catch : TryCatch) (message : Message) (err : String)
    (h : try_catch.Message = some message) :
    ReportException try_catch err
      = err ++ printed message.ResourceName ++ ":" ++ toString message.LineNumber ++ ": "
          ++ printed try_catch.Exception ++ "\n"
          ++ printed message.SourceLine ++ "\n"
          ++ repeatChar ' ' message.StartColumn.toNat
          ++ repeatChar '^' (message.EndColumn - message.StartColumn).toNat ++ "\n"
          ++ traceText try_catch.StackTrace := by
  unfold ReportException
  rw [h]
  simp only []
  rw [trace_part, underline_eq, printed_toCString, printed_toCString, printed_toCString]

theorem readLoop_done (file : FileView) (size : Nat) (h : size ≤ file.bytes.length) :
    readLoop file size 0 = .done := by
  rw [readLoop]
  by_cases h0 : 0 < size
  · have hr : fread file 0 (size - 0) = (size, false) := by
      simp [fread, h]
    rw [dif_pos h0]
    simp only [hr]
    rw [dif_neg (by omega)]
    simp only [Bool.false_eq_true, if_false]
    rw [readLoop, dif_neg (by omega)]
  · rw [dif_neg h0]

/-- A file that opens, whose buffer is allocated and whose stream delivers the
reported size is read whole. -/
theorem ReadFile_complete {σ Script : Type} (E : Engine σ Script) (w : World σ)
    (name : String) (file : FileView) (hf : w.files (upToNul name) = some file)
    (ha : file.allocates = true) (hs : file.size ≤ file.bytes.length) :
    ReadFile E w name
      = .returned (E.NewFromUtf8 (String.mk (file.bytes.data.take file.size))
          (toInt file.size)) := by
  unfold ReadFile
  rw [hf]
  simp only [ha, Bool.not_true, Bool.false_eq_true, if_false]
  rw [readLoop_done file file.size hs]

/-- A name that opens but whose buffer cannot be allocated kills the
process. -/
theorem ReadFile_crashed {σ Script : Type} (E : Engine σ Script) (w : World σ)
    (name : String) (file : FileView) (hf : w.files (upToNul name) = some file)
    (ha : file.allocates = false) :
    ReadFile E w name = .crashed := by
  unfold ReadFile
  rw [hf]
  simp [ha]

theorem readFile_p1 (w : World Unit) (h : w.files = demoFiles) :
    ReadFile demoEngine w "p1.js" = .returned (some "print(1)") := by
  rw [ReadFile_complete demoEngine w "p1.js" ⟨8, true, "print(1)", false⟩
    (by rw [h]; decide) rfl (by decide)]
  decide

theorem readFile_p2 (w : World Unit) (h : w.files = demoFiles) :
    ReadFile demoEngine w "p2.js" = .returned (some "bad(") := by
  rw [ReadFile_complete demoEngine w "p2.js" ⟨4, true, "bad(", false⟩
    (by rw [h]; decide) rfl (by decide)]
  decide

theorem readFile_p3 (w : World Unit) (h : w.files = demoFiles) :
    ReadFile demoEngine w "p3.js" = .returned (some "2") := by
  rw [ReadFile_complete demoEngine w "p3.js" ⟨1, true, "2", false⟩
    (by rw [h]; decide) rfl (by decide)]
  decide

theorem readFile_d (w : World Unit) (h : w.files = demoFiles) :
    ReadFile demoEngine w "d" = .crashed :=
  ReadFile_crashed demoEngine w "d" ⟨2 ^ 63 - 1, false, "", true⟩ (by rw [h]; decide) rfl

theorem readFile_short (w : World Unit) (h : w.files = demoFiles) :
    ReadFile demoEngine w "short.js" = .hung := by
  have hf : w.files (upToNul "short.js") = some ⟨10, true, "2", false⟩ := by rw [h]; decide
  unfold ReadFile
  rw [hf]
  have hl : readLoop ⟨10, true, "2", false⟩ 10 0 = .hung := by
    rw [readLoop, dif_pos (by decide)]
    have h1 : fread ⟨10, true, "2", false⟩ 0 (10 - 0) = (1, false) := by decide
    simp only [h1, Bool.false_eq_true, if_false]
    rw [dif_neg (by decide), readLoop, dif_pos (by decide)]
    have h2 : fread ⟨10, true, "2", false⟩ (0 + 1) (10 - (0 + 1)) = (0, false) := by decide
    simp only [h2, Bool.false_eq_true, if_false]
    rfl
  simp [hl]

/-! ## The diagnostic layout -/

/-- Claim C1. When the message reports a start column `S` and an end column
`E` with `0 <= S <= E`, the underline line `ReportException` writes, between
the source line and the stack trace, is exactly `S` spaces, then `E - S`
carets, then a newline. -/
theorem underline_spaces_then_carets (try_catch : TryCatch) (message : Message)
    (err : String) (S E : Nat) (hm : try_catch.Message = some message)
    (hS : message.StartColumn = (S : Int)) (hE : message.EndColumn = (E : Int))
    (hSE : S ≤ E) :
    underline message err = err ++ repeatChar ' ' S ++ repeatChar '^' (E - S) ++ "\n" ∧
      ReportException try_catch err
        = err ++ reportHead try_catch message
            ++ repeatChar ' ' S ++ repeatChar '^' (E - S) ++ "\n"
            ++ traceText try_catch.StackTrace := by
  have h1 : ((S : Int)).toNat = S := by omega
  have h2 : ((E : Int) - (S : Int)).toNat = E - S := by omega
  constructor
  · rw [underline_eq, hS, hE, h1, h2]
  · rw [report_some try_catch message err hm, hS, hE, h1, h2]
    simp [reportHead, String.append_assoc]

/-- Witness of claim C1 at columns 6 and 9: six spaces, three carets, a
newline. -/
theorem underline_spaces_then_carets_witness :
    underline ⟨some "o", 3, some "  throw x", 6, 9⟩ "" = "      ^^^\n" :=
  (underline_spaces_then_carets ⟨true, some "bad", some ⟨some "o", 3, some "  throw x", 6, 9⟩, none⟩
    ⟨some "o", 3, some "  throw x", 6, 9⟩ "" 6 9 rfl rfl rfl (by decide)).1.trans (by decide)

/-- Counterexample to claim C2 as stated: with start column `-2` and end
column `3` the start column is negative, yet the underline line holds five
carets. -/
theorem negative_start_not_clamped :
    (⟨some "o", 1, some "x", -2, 3⟩ : Message).StartColumn < 0 ∧
      underline ⟨some "o", 1, some "x", -2, 3⟩ "" = "^^^^^\n" ∧
      ReportException ⟨true, some "bad", some ⟨some "o", 1, some "x", -2, 3⟩, none⟩ ""
        = "o:1: bad\nx\n^^^^^\n" :=
  ⟨by decide, (underline_eq ⟨some "o", 1, some "x", -2, 3⟩ "").trans (by decide),
    (report_some ⟨true, some "bad", some ⟨some "o", 1, some "x", -2, 3⟩, none⟩
      ⟨some "o", 1, some "x", -2, 3⟩ "" rfl).trans (by decide)⟩

/-- Claim C2, amended. For arbitrary `int` columns `S` and `E` the underline
line holds `max 0 S` spaces and `max 0 (E - S)` carets; in particular no caret
is written whenever `E <= S`, which covers every start column greater than the
end column. -/
theorem underline_caret_count (try_catch : TryCatch) (message : Message) (err : String)
    (hm : try_catch.Message = some message) :
    ReportException try_catch err
        = err ++ reportHead try_catch message
            ++ repeatChar ' ' message.StartColumn.toNat
            ++ repeatChar '^' (message.EndColumn - message.StartColumn).toNat ++ "\n"
            ++ traceText try_catch.StackTrace ∧
      (message.EndColumn ≤ message.StartColumn →
        ReportException try_catch err
          = err ++ reportHead try_catch message
              ++ repeatChar ' ' message.StartColumn.toNat ++ "\n"
              ++ traceText try_catch.StackTrace) := by
  have h1 : ReportException try_catch err
        = err ++ reportHead try_catch message
            ++ repeatChar ' ' message.StartColumn.toNat
            ++ repeatChar '^' (message.EndColumn - message.StartColumn).toNat ++ "\n"
            ++ traceText try_catch.StackTrace := by
    rw [report_some try_catch message err hm]
    simp [reportHead, String.append_assoc]
  refine ⟨h1, fun h => ?_⟩
  have h0 : (message.EndColumn - message.StartColumn).toNat = 0 := by omega
  rw [h1, h0, repeatChar_zero, append_empty_right]

/-- Witness of the amended claim C2 at columns 5 and 2: five spaces and no
caret. -/
theorem underline_caret_count_witness :
    ReportException ⟨true, some "bad", some ⟨some "o", 1, some "x", 5, 2⟩, none⟩ ""
      = "o:1: bad\nx\n     \n" :=
  ((underline_caret_count ⟨true, some "bad", some ⟨some "o", 1, some "x", 5, 2⟩, none⟩
    ⟨some "o", 1, some "x", 5, 2⟩ "" rfl).2 (by decide)).trans (by decide)

/-- Counterexample to claim C5 as stated: with the source line absent a line
holding the placeholder of `ToCString` stands between the `origin:line:
message` line and the underline line. -/
theorem absent_source_line_prints_placeholder :
    ReportException ⟨true, some "bad", some ⟨some "o", 3, none, 0, 1⟩, none⟩ ""
        = "o:3: bad\n<string conversion failed>\n^\n" ∧
      ReportException ⟨true, some "bad", some ⟨some "o", 3, none, 0, 1⟩, none⟩ ""
        ≠ "o:3: bad\n^\n" := by
  have h := report_some ⟨true, some "bad", some ⟨some "o", 3, none, 0, 1⟩, none⟩
    ⟨some "o", 3, none, 0, 1⟩ "" rfl
  refine ⟨h.trans (by decide), ?_⟩
  rw [h]
  decide

/-- Claim C5, amended. With a message object whose source line is absent, the
`origin:line: message` line is followed by the line `<string conversion
failed>` and only then by the underline line. -/
theorem report_absent_source_line (try_catch : TryCatch) (message : Message) (err : String)
    (hm : try_catch.Message = some message) (hsrc : message.SourceLine = none) :
    ReportException try_catch err
      = err ++ printed message.ResourceName ++ ":" ++ toString message.LineNumber ++ ": "
          ++ printed try_catch.Exception ++ "\n"
          ++ "<string conversion failed>" ++ "\n"
          ++ repeatChar ' ' message.StartColumn.toNat
          ++ repeatChar '^' (message.EndColumn - message.StartColumn).toNat ++ "\n"
          ++ traceText try_catch.StackTrace := by
  rw [report_some try_catch message err hm, hsrc]
  rfl

/-- Witness of the amended claim C5. -/
theorem report_absent_source_line_witness :
    ReportException ⟨true, some "bad", some ⟨some "f.js", 7, none, 2, 4⟩, some "at f.js:7"⟩ ""
      = "f.js:7: bad\n<string conversion failed>\n  ^^\nat f.js:7\n" :=
  (report_absent_source_line
    ⟨true, some "bad", some ⟨some "f.js", 7, none, 2, 4⟩, some "at f.js:7"⟩
    ⟨some "f.js", 7, none, 2, 4⟩ "" rfl rfl).trans (by decide)

/-! ## Read -/

/-- Claim C6. With an argument count other than 1, `Read` throws `Bad
parameters`, sets no return value and makes no call to `ReadFile`; with exactly
one argument it never throws `Bad parameters`. -/
theorem Read_argument_count {σ Script : Type} (E : Engine σ Script) (args : List Value)
    (w : World σ) :
    (args.length ≠ 1 → Read E args w = ⟨[], some "Bad parameters", none, .returned⟩) ∧
      (args.length = 1 → (Read E args w).thrown ≠ some "Bad parameters") := by
  constructor
  · intro h
    unfold Read
    rw [if_pos h]
  · intro h
    unfold Read
    rw [if_neg (by omega)]
    split
    · simp
    · split <;> simp

/-- Witness of claim C6: no argument, two arguments, and one argument naming a
readable file. -/
theorem Read_argument_count_witness :
    Read demoEngine [] demoWorld = ⟨[], some "Bad parameters", none, .returned⟩ ∧
      Read demoEngine [Value.text "p1.js", Value.text "p3.js"] demoWorld
        = ⟨[], some "Bad parameters", none, .returned⟩ ∧
      (Read demoEngine [Value.text "p3.js"] demoWorld).thrown ≠ some "Bad parameters" :=
  ⟨(Read_argument_count demoEngine [] demoWorld).1 (by decide),
    (Read_argument_count demoEngine [Value.text "p1.js", Value.text "p3.js"] demoWorld).1
      (by decide),
    (Read_argument_count demoEngine [Value.text "p3.js"] demoWorld).2 rfl⟩

/-! ## Load -/

/-- A clean prefix is run by `Load` call for call, and `Load` then goes on
with the remaining arguments from the state reached. -/
theorem load_append {σ Script : Type} (E : Engine σ Script) (pre rest : List Value)
    (w w1 : World σ) (calls : List Call) (h : LoadsCleanly E pre w calls w1) :
    Load E (pre ++ rest) w = (calls ++ (Load E rest w1).1, (Load E rest w1).2) := by
  induction h with
  | nil w => simp
  | cons hfile hread hexec _ ih =>
    rw [List.cons_append, Load]
    simp only [hfile, hread, hexec, ih]
    rfl

/-- The calls of a clean prefix are one read and one execution per argument,
in the order of the arguments. -/
theorem loadsCleanly_calls {σ Script : Type} (E : Engine σ Script) (pre : List Value)
    (w w1 : World σ) (calls : List Call) (h : LoadsCleanly E pre w calls w1) :
    ∃ sources : List String, sources.length = pre.length ∧
      calls = (pre.zip sources).flatMap (fun p =>
        [Call.ReadFile (printed p.1.Utf8),
          Call.ExecuteString p.2 (printed p.1.Utf8) false false]) := by
  induction h with
  | nil w => exact ⟨[], rfl, rfl⟩
  | @cons arg rest file source w w1 w2 calls hfile hread hexec _ ih =>
    obtain ⟨sources, hlen, hcalls⟩ := ih
    refine ⟨source :: sources, by simp [hlen], ?_⟩
    simp [List.zip_cons_cons, List.flatMap_cons, hfile, printed, hcalls]

/-- A call of `Load` returns normally exactly when all its arguments load
cleanly. -/
theorem load_returned_iff {σ Script : Type} (E : Engine σ Script) (args : List Value) :
    ∀ (w w1 : World σ) (calls : List Call),
      Load E args w = (calls, .returned w1) ↔ LoadsCleanly E args w calls w1 := by
  induction args with
  | nil =>
    intro w w1 calls
    constructor
    · intro h
      simp only [Load, Prod.mk.injEq, LoadOutcome.returned.injEq] at h
      obtain ⟨h1, h2⟩ := h
      subst h1 h2
      exact LoadsCleanly.nil w
    · intro h
      cases h
      rfl
  | cons arg rest ih =>
    intro w w1 calls
    constructor
    · intro h
      unfold Load at h
      cases hfile : arg.Utf8 with
      | none => simp [hfile] at h
      | some file =>
        cases hread : ReadFile E w file with
        | crashed => simp [hfile, hread] at h
        | hung => simp [hfile, hread] at h
        | returned handle =>
          cases handle with
          | none => simp [hfile, hread] at h
          | some source =>
            cases hexec : ExecuteString E source (upToNul file) false false w with
            | none => simp [hfile, hread, hexec] at h
            | some r =>
              obtain ⟨b, w2⟩ := r
              cases b with
              | false => simp [hfile, hread, hexec] at h
              | true =>
                simp only [hfile, hread, hexec, Prod.mk.injEq] at h
                obtain ⟨h1, h2⟩ := h
                subst h1
                exact LoadsCleanly.cons hfile hread hexec
                  ((ih w2 w1 (Load E rest w2).1).1 (Prod.ext rfl h2))
    · intro h
      have := load_append E (arg :: rest) [] w w1 calls h
      simpa [Load] using this

/-- In every run in which `ReadFile` returns, `Load` is fail-fast and in
order: after a clean prefix, a failing argument ends the call with the calls
of the prefix followed by those of the failing step, whatever follows it. -/
theorem load_fail_fast {σ Script : Type} (E : Engine σ Script) (pre post : List Value)
    (a : Value) (w w1 : World σ) (calls : List Call)
    (hpre : LoadsCleanly E pre w calls w1) :
    (a.Utf8 = none →
        Load E (pre ++ a :: post) w = (calls, .threw "Error loading file" w1)) ∧
      (∀ file, a.Utf8 = some file → ReadFile E w1 file = .returned none →
        Load E (pre ++ a :: post) w
          = (calls ++ [.ReadFile (upToNul file)], .threw "Error loading file" w1)) ∧
      (∀ file source w2, a.Utf8 = some file →
        ReadFile E w1 file = .returned (some source) →
        ExecuteString E source (upToNul file) false false w1 = some (false, w2) →
        Load E (pre ++ a :: post) w
          = (calls ++ [.ReadFile (upToNul file),
                .ExecuteString source (upToNul file) false false],
              .threw "Error executing file" w2)) ∧
      (∀ file, a.Utf8 = some file → ReadFile E w1 file = .crashed →
        Load E (pre ++ a :: post) w = (calls ++ [.ReadFile (upToNul file)], .crashed)) ∧
      (∀ file, a.Utf8 = some file → ReadFile E w1 file = .hung →
        Load E (pre ++ a :: post) w = (calls ++ [.ReadFile (upToNul file)], .hung)) := by
  refine ⟨?_, ?_, ?_, ?_, ?_⟩
  · intro hfile
    rw [load_append E pre (a :: post) w w1 calls hpre]
    simp [Load, hfile]
  · intro file hfile hread
    rw [load_append E pre (a :: post) w w1 calls hpre]
    simp [Load, hfile, hread]
  · intro file source w2 hfile hread hexec
    rw [load_append E pre (a :: post) w w1 calls hpre]
    simp [Load, hfile, hread, hexec]
  · intro file hfile hread
    rw [load_append E pre (a :: post) w w1 calls hpre]
    simp [Load, hfile, hread]
  · intro file hfile hread
    rw [load_append E pre (a :: post) w w1 calls hpre]
    simp [Load, hfile, hread]

/-- The first script of the concrete runs loads cleanly and leaves its `print`
output on `stdout`. -/
theorem loadsCleanly_p1 :
    LoadsCleanly demoEngine [Value.text "p1.js"] demoWorld
      [.ReadFile "p1.js", .ExecuteString "print(1)" "p1.js" false false]
      { demoWorld with out := "1\n" } :=
  LoadsCleanly.cons (rfl : (Value.text "p1.js").Utf8 = some "p1.js")
    (readFile_p1 demoWorld rfl) rfl (LoadsCleanly.nil _)

/-- Claim C7, the code at the failing input. The second argument names the
directory `d`, a path that cannot be read: `fopen` opens it, the unchecked
size makes `new char[size + 1]` fail, and the process dies inside `ReadFile`.
The first script has been read and executed, no `Error loading file` is
thrown, and the call does not return. With `short.js`, whose stream ends
before the reported size, `ReadFile` never returns. -/
theorem Load_dies_on_unreadable_path :
    Load demoEngine [Value.text "p1.js", Value.text "d", Value.text "p3.js"] demoWorld
        = ([.ReadFile "p1.js", .ExecuteString "print(1)" "p1.js" false false, .ReadFile "d"],
            .crashed) ∧
      Load demoEngine [Value.text "short.js", Value.text "p3.js"] demoWorld
        = ([.ReadFile "short.js"], .hung) := by
  constructor
  · exact (load_fail_fast demoEngine [Value.text "p1.js"] [Value.text "p3.js"]
      (Value.text "d") demoWorld { demoWorld with out := "1\n" } _ loadsCleanly_p1).2.2.2.1
      "d" rfl (readFile_d _ rfl)
  · exact (load_fail_fast demoEngine [] [Value.text "p3.js"]
      (Value.text "short.js") demoWorld demoWorld _ (LoadsCleanly.nil _)).2.2.2.2
      "short.js" rfl (readFile_short _ rfl)

/-- The fail-fast run of the spec: of three files the second does not compile;
the first is read and executed, the second is read and its execution fails,
the third is never read. -/
theorem load_second_fails_to_compile :
    Load demoEngine [Value.text "p1.js", Value.text "p2.js", Value.text "p3.js"] demoWorld
      = ([.ReadFile "p1.js", .ExecuteString "print(1)" "p1.js" false false,
          .ReadFile "p2.js", .ExecuteString "bad(" "p2.js" false false],
        .threw "Error executing file" { demoWorld with out := "1\n" }) :=
  (load_fail_fast demoEngine [Value.text "p1.js"] [Value.text "p3.js"] (Value.text "p2.js")
    demoWorld { demoWorld with out := "1\n" } _ loadsCleanly_p1).2.2.1
    "p2.js" "bad(" _ rfl (readFile_p2 _ rfl) rfl

/-! ## ExecuteString -/

/-- Counterexample to claim C9 as stated: with `report_exceptions` set, a
compile failure makes `ExecuteString` write `Exception` and a newline to
`stdout`, and a run failure `Exception2` and a newline. -/
theorem failure_marker_on_stdout :
    (ExecuteString demoEngine "bad(" "t.js" false true demoWorld).map (fun r => (r.1, r.2.out))
        = some (false, "Exception\n") ∧
      (ExecuteString demoEngine "throw 1" "t.js" false true demoWorld).map
          (fun r => (r.1, r.2.out))
        = some (false, "Exception2\n") :=
  ⟨by decide, by decide⟩

/-- Claim C9, amended. After a compile failure or a run failure, for both
values of `print_result`: with `report_exceptions` off `ExecuteString` writes
nothing at all; with it on, it writes to `stdout` exactly the marker line
`Exception` (compile failure) or `Exception2` (run failure), and the report of
`ReportException` goes to `stderr` only. -/
theorem ExecuteString_failure_streams {σ Script : Type} (E : Engine σ Script)
    (source name : String) (print_result report_exceptions : Bool) (w : World σ) :
    (∀ tc1 w1, E.Compile source name w = (none, tc1, w1) →
        ExecuteString E source name print_result report_exceptions w
          = some (false,
              if report_exceptions then
                { w1 with out := w1.out ++ "Exception\n", err := ReportException tc1 w1.err }
              else w1)) ∧
      (∀ script tc1 w1 tc2 w2,
        E.Compile source name w = (some script, tc1, w1) →
        E.Run script w1 = (none, tc2, w2) → tc2.HasCaught = true →
        ExecuteString E source name print_result report_exceptions w
          = some (false,
              if report_exceptions then
                { w2 with out := w2.out ++ "Exception2\n", err := ReportException tc2 w2.err }
              else w2)) := by
  refine ⟨?_, ?_⟩
  · intro tc1 w1 hc
    cases report_exceptions <;> simp [ExecuteString, hc]
  · intro script tc1 w1 tc2 w2 hc hr hcaught
    cases report_exceptions <;> simp [ExecuteString, hc, hr, hcaught]

/-- Witness of the amended claim C9: a compile failure with
`report_exceptions` off leaves both streams empty, and a run failure with it on
puts the marker on `stdout` and the report on `stderr`. -/
theorem ExecuteString_failure_streams_witness :
    (ExecuteString demoEngine "bad(" "t.js" true false demoWorld).map
          (fun r => (r.1, r.2.out, r.2.err))
        = some (false, "", "") ∧
      (ExecuteString demoEngine "throw 1" "t.js" true true demoWorld).map
          (fun r => (r.1, r.2.out, r.2.err))
        = some (false, "Exception2\n", "t.js:1: 1\nthrow 1\n^^^^^^^\n") :=
  ⟨(congrArg (Option.map (fun r => (r.1, r.2.out, r.2.err)))
      ((ExecuteString_failure_streams demoEngine "bad(" "t.js" true false demoWorld).1
        _ _ rfl)).trans (by decide),
    (congrArg (Option.map (fun r => (r.1, r.2.out, r.2.err)))
      ((ExecuteString_failure_streams demoEngine "throw 1" "t.js" true true demoWorld).2
        "throw 1" _ _ _ _ rfl rfl rfl)).trans
      (by
        have h := report_some
          ⟨true, some "1", some ⟨some "t.js", 1, some "throw 1", 0, 7⟩, none⟩
          ⟨some "t.js", 1, some "throw 1", 0, 7⟩ "" rfl
        simp only [Option.map, ite_true, demoWorld]
        rw [h]
        decide)⟩

/-! ## Print -/

end V8sh
